import Mathlib

/-!
# Verification of `scripts/analyze_mutations.py`

A shallow embedding of the mutation-testing analysis script.  The script
loads a cargo-mutants JSON document, computes an overall mutation score and
per-crate scores, lists surviving mutants, prints a report and exits with
status 0 or 1 depending on thresholds.

JSON values are modelled by the inductive type `Json`; Python operations
that can raise (`.get` on a non-dict, iterating a non-iterable, `in` on a
non-container, `.split` on a non-string, list indexing) are modelled in the
`Except PyErr` monad.  Python `float` arithmetic is modelled by exact
rational arithmetic (`Rat`); the script only ever divides a count by a
non-zero count and multiplies by 100.

Python strings are modelled as `String` / `List Char`; `str.split(sep)` is
`pySplit`, defined with an explicit fuel argument (equal to the string
length) so that it is structurally recursive and evaluates inside the
kernel.
-/

/-- A parsed JSON value, as produced by Python's `json.load`.  Objects are
association lists in insertion order with distinct keys (as produced by the
JSON parser); numbers in the documents at hand are integers. -/
inductive Json where
  | null : Json
  | bool : Bool → Json
  | num : Int → Json
  | str : String → Json
  | arr : List Json → Json
  | obj : List (String × Json) → Json

/-- Python exception kinds raised by the operations the script uses. -/
inductive PyErr where
  | attributeError : PyErr
  | typeError : PyErr
  | indexError : PyErr
  | keyError : PyErr
deriving DecidableEq

/-- `d.get(key, default)`: a method of `dict`; on any non-dict value Python
raises `AttributeError`. -/
def pyGet (j : Json) (key : String) (dflt : Json) : Except PyErr Json :=
  match j with
  | .obj fields => .ok ((fields.lookup key).getD dflt)
  | _ => .error .attributeError

/-- `for x in j`: lists iterate their elements, strings their one-character
substrings, dicts their keys; everything else raises `TypeError`. -/
def pyIterList (j : Json) : Except PyErr (List Json) :=
  match j with
  | .arr xs => .ok xs
  | .str s => .ok (s.data.map (fun c => .str (String.mk [c])))
  | .obj fields => .ok (fields.map (fun kv => .str kv.1))
  | _ => .error .typeError

/-- `needle in hay` for a string literal `needle`: substring test on a
string, membership (via `==`) on a list, key test on a dict; `TypeError`
otherwise. -/
def strContains (sep : List Char) : List Char → Bool
  | [] => sep.isEmpty
  | c :: rest => sep.isPrefixOf (c :: rest) || strContains sep rest

def pyInStr (needle : String) (hay : Json) : Except PyErr Bool :=
  match hay with
  | .str s => .ok (strContains needle.data s.data)
  | .arr xs => .ok (xs.any (fun x => match x with | .str s => s = needle | _ => false))
  | .obj fields => .ok (fields.any (fun kv => kv.1 = needle))
  | _ => .error .typeError

/-- The characters of a JSON string; `.split` is a `str` method, so any
other value raises `AttributeError`. -/
def pyStrData (j : Json) : Except PyErr (List Char) :=
  match j with
  | .str s => .ok s.data
  | _ => .error .attributeError

/-- `l[i]` on a list: `IndexError` when out of range. -/
def pyIndex (l : List (List Char)) (i : Nat) : Except PyErr (List Char) :=
  match l.get? i with
  | some x => .ok x
  | none => .error .indexError

/-- Python `s.split(sep)` for a non-empty separator, with fuel: splits on
every non-overlapping occurrence of `sep`, left to right, keeping empty
pieces.  `pySplitF` is structurally recursive on the fuel so that concrete
instances reduce inside the kernel; `pySplit` supplies fuel `s.length`,
which is always sufficient. -/
def pySplitF (sep : List Char) : Nat → List Char → List (List Char)
  | _, [] => [[]]
  | 0, _ :: _ => [[]]
  | fuel + 1, c :: rest =>
    if sep.isPrefixOf (c :: rest) then
      [] :: pySplitF sep fuel ((c :: rest).drop sep.length)
    else
      match pySplitF sep fuel rest with
      | [] => [[c]]
      | p :: ps => (c :: p) :: ps

def pySplit (sep s : List Char) : List (List Char) := pySplitF sep s.length s

/-- The separators the script splits on. -/
def cratesSep : List Char := "crates/".data

def slashSep : List Char := "/".data

/-- Mutation score thresholds (from decy-quality.toml), source lines 24-33. -/
def THRESHOLDS : List (String × Rat) :=
  [("decy-ownership", 90),
   ("decy-lifetime", 90),
   ("decy-verify", 85),
   ("decy-parser", 80),
   ("decy-codegen", 85),
   ("decy-analyzer", 80),
   ("decy-hir", 80),
   ("decy-core", 85)]

def OVERALL_THRESHOLD : Rat := 85

/-- `THRESHOLDS.get(crate, OVERALL_THRESHOLD)`. -/
def thresholdsGet (crate : String) : Rat :=
  (THRESHOLDS.lookup crate).getD OVERALL_THRESHOLD

/-- `outcome.get('summary') in ['caught', 'timeout']` — the detection test
used (textually identically) in `calculate_mutation_score` (line 56),
`calculate_per_crate_scores` (line 83) and, negated, in
`analyze_surviving_mutants` (line 103). -/
def summaryDetected (j : Json) : Bool :=
  match j with
  | .str s => s = "caught" || s = "timeout"
  | _ => false

def detectedJ (outcome : Json) : Except PyErr Bool := do
  let s ← pyGet outcome "summary" Json.null
  pure (summaryDetected s)

/-- Loop body accumulation of `calculate_mutation_score` (lines 54-57):
state is `(total, caught)`. -/
def msFold : Nat × Nat → List Json → Except PyErr (Nat × Nat)
  | acc, [] => .ok acc
  | acc, outcome :: rest => do
    let total := acc.1 + 1
    let d ← detectedJ outcome
    let caught := if d then acc.2 + 1 else acc.2
    msFold (total, caught) rest

/-- `calculate_mutation_score` (lines 44-63): returns
`(score, caught, total)`. -/
def calculate_mutation_score (data : Json) : Except PyErr (Rat × Nat × Nat) := do
  let outcomesJ ← pyGet data "outcomes" (Json.arr [])
  let outcomes ← pyIterList outcomesJ
  let tc ← msFold (0, 0) outcomes
  if tc.1 = 0 then
    pure (0, 0, 0)
  else
    pure (((tc.2 : Rat) / (tc.1 : Rat)) * 100, tc.2, tc.1)

/-- Crate-name extraction from one outcome record
(`calculate_per_crate_scores`, lines 71-77). -/
def crateNameOf (outcome : Json) : Except PyErr String := do
  let scen ← pyGet outcome "scenario" (Json.obj [])
  let fileJ ← pyGet scen "file" (Json.str "")
  let contains ← pyInStr "crates/" fileJ
  if contains then do
    let s ← pyStrData fileJ
    let piece ← pyIndex (pySplit cratesSep s) 1
    match pySplit slashSep piece with
    | [] => pure "unknown"
    | q :: _ => pure (String.mk q)
  else
    pure "unknown"

/-- The same extraction applied to a bare path string (the value of
`scenario.file`). -/
def crateNameOfPath (p : String) : Except PyErr String :=
  if strContains cratesSep p.data then do
    let piece ← pyIndex (pySplit cratesSep p.data) 1
    match pySplit slashSep piece with
    | [] => pure "unknown"
    | q :: _ => pure (String.mk q)
  else
    pure "unknown"

/-- `if crate_name not in crate_stats: crate_stats[crate_name] = {'total': 0, 'caught': 0}`
(lines 79-80).  Python dicts append new keys at the end. -/
def pcInit (st : List (String × Nat × Nat)) (crate : String) : List (String × Nat × Nat) :=
  if (st.lookup crate).isSome then st else st ++ [(crate, 0, 0)]

/-- `crate_stats[crate_name]['total'] += 1` (line 82). -/
def pcBumpTotal (st : List (String × Nat × Nat)) (crate : String) : List (String × Nat × Nat) :=
  st.map (fun e => if e.1 = crate then (e.1, e.2.1 + 1, e.2.2) else e)

/-- `crate_stats[crate_name]['caught'] += 1` (line 84). -/
def pcBumpCaught (st : List (String × Nat × Nat)) (crate : String) : List (String × Nat × Nat) :=
  st.map (fun e => if e.1 = crate then (e.1, e.2.1, e.2.2 + 1) else e)

/-- Loop of `calculate_per_crate_scores` (lines 70-84): state is the
`crate_stats` dict, an association list `crate ↦ (total, caught)` in
insertion order. -/
def pcFold : List (String × Nat × Nat) → List Json → Except PyErr (List (String × Nat × Nat))
  | st, [] => .ok st
  | st, outcome :: rest => do
    let crate ← crateNameOf outcome
    let st1 := pcInit st crate
    let st2 := pcBumpTotal st1 crate
    let d ← detectedJ outcome
    let st3 := if d then pcBumpCaught st2 crate else st2
    pcFold st3 rest

/-- `calculate_per_crate_scores` (lines 66-95): returns the `results`
dict `crate ↦ (score, caught, total)` in insertion order. -/
def calculate_per_crate_scores (data : Json) :
    Except PyErr (List (String × Rat × Nat × Nat)) := do
  let outcomesJ ← pyGet data "outcomes" (Json.arr [])
  let outcomes ← pyIterList outcomesJ
  let crate_stats ← pcFold [] outcomes
  pure (crate_stats.map (fun e =>
    if e.2.1 > 0 then (e.1, ((e.2.2 : Rat) / (e.2.1 : Rat)) * 100, e.2.2, e.2.1)
    else (e.1, 0, 0, 0)))

/-- One entry of the `surviving` list (lines 104-109); field values are the
raw JSON values fetched with their defaults. -/
structure SurvivingMutant where
  file : Json
  function : Json
  line : Json
  summary : Json

/-- Loop of `analyze_surviving_mutants` (lines 102-109). -/
def svFold : List SurvivingMutant → List Json → Except PyErr (List SurvivingMutant)
  | acc, [] => .ok acc
  | acc, outcome :: rest => do
    let d ← detectedJ outcome
    if d then
      svFold acc rest
    else do
      let scen ← pyGet outcome "scenario" (Json.obj [])
      let file ← pyGet scen "file" (Json.str "unknown")
      let fn ← pyGet scen "function" (Json.str "unknown")
      let line ← pyGet scen "line" (Json.num 0)
      let summ ← pyGet outcome "summary" (Json.str "unknown")
      svFold (acc ++ [⟨file, fn, line, summ⟩]) rest

/-- `analyze_surviving_mutants` (lines 98-111). -/
def analyze_surviving_mutants (data : Json) : Except PyErr (List SurvivingMutant) := do
  let outcomesJ ← pyGet data "outcomes" (Json.arr [])
  let outcomes ← pyIterList outcomesJ
  svFold [] outcomes

/-- The failed-crates list comprehension in `main` (lines 198-201),
iterating `crate_scores.items()` in dict (insertion) order. -/
def main_failed_crates (crate_scores : List (String × Rat × Nat × Nat)) : List String :=
  (crate_scores.filter (fun e => decide (e.2.1 < thresholdsGet e.1))).map (fun e => e.1)

/-- Insertion sort on strings, modelling Python's `sorted` on the crate
names (all keys are distinct, so stability is irrelevant). -/
def insertStr (x : String) : List String → List String
  | [] => [x]
  | y :: ys => if x ≤ y then x :: y :: ys else y :: insertStr x ys

def sortStrs : List String → List String
  | [] => []
  | x :: xs => insertStr x (sortStrs xs)

/-- The `failed_crates` accumulation in `print_report` (lines 136-148):
iterate `sorted(crate_scores.keys())`, look each crate up, and collect those
with `not (score >= threshold)`.  The `none` branch is unreachable: the keys
iterated are exactly the keys of the dict being subscripted. -/
def report_failed_crates (crate_scores : List (String × Rat × Nat × Nat)) : List String :=
  (sortStrs (crate_scores.map (fun e => e.1))).filter (fun crate =>
    match crate_scores.lookup crate with
    | some stats => !(decide (thresholdsGet crate ≤ stats.1))
    | none => false)

/-- The final banner condition of `print_report` (line 166):
`overall_score >= OVERALL_THRESHOLD and not failed_crates`. -/
def report_passed_banner (overall_score : Rat)
    (crate_scores : List (String × Rat × Nat × Nat)) : Bool :=
  decide (OVERALL_THRESHOLD ≤ overall_score) && (report_failed_crates crate_scores).isEmpty

/-- `main` after a successful `json.load` (lines 189-206): runs the three
analyses, renders the report (pure output, no effect on the result — its
failed-crates accumulation is `report_failed_crates`), and exits 1 when the
overall score is below `OVERALL_THRESHOLD` or some crate misses its
threshold, else 0.  An uncaught `PyErr` is a crashed process. -/
def mainExitCode (data : Json) : Except PyErr Nat := do
  let res ← calculate_mutation_score data
  let crate_scores ← calculate_per_crate_scores data
  let _surviving ← analyze_surviving_mutants data
  let failed_crates := main_failed_crates crate_scores
  if res.1 < OVERALL_THRESHOLD ∨ failed_crates ≠ [] then
    pure 1
  else
    pure 0

def slashChar : Char := '/'

/-- Least index at which `sep` occurs as a contiguous substring (used only
to state and prove the amended form of the module-name-extraction claim). -/
def firstOccur (sep : List Char) : List Char → Option Nat
  | [] => if sep.isEmpty then some 0 else none
  | c :: rest =>
    if sep.isPrefixOf (c :: rest) then some 0
    else (firstOccur sep rest).map (fun n => n + 1)

/-- The amended module-name specification: when `"crates/"` occurs as a
substring of the path, the module name is the text that follows the first
occurrence, truncated at the next `'/'` and at the next occurrence of
`"crates/"`; otherwise `"unknown"`. -/
def crateNameAmendedSpec (p : String) : String :=
  match firstOccur cratesSep p.data with
  | none => "unknown"
  | some i =>
    let rest := p.data.drop (i + cratesSep.length)
    let piece := match firstOccur cratesSep rest with
                 | none => rest
                 | some j => rest.take j
    String.mk (piece.takeWhile (fun ch => ch ≠ slashChar))

/-- A record's `scenario.file` entry is a string (or the fields are
absent): the shapes whose per-record anomalies the loaders absorb. -/
def goodFile : Option Json → Bool
  | none => true
  | some (.str _) => true
  | some _ => false

def goodScenario : Option Json → Bool
  | none => true
  | some (.obj sfs) => goodFile (sfs.lookup "file")
  | some _ => false

def goodRecord : Json → Bool
  | .obj ofs => goodScenario (ofs.lookup "scenario")
  | _ => false

/-- The keys of the `crate_stats` dict. -/
def pcKeys (st : List (String × Nat × Nat)) : List String := st.map (fun e => e.1)

/-- Sum of the per-crate `total` counters. -/
def pcSumTotal (st : List (String × Nat × Nat)) : Nat := (st.map (fun e => e.2.1)).sum

/-- Sum of the per-crate `caught` counters. -/
def pcSumCaught (st : List (String × Nat × Nat)) : Nat := (st.map (fun e => e.2.2)).sum

/-- Every crate's `caught` counter is at most its `total` counter. -/
def pcCT (st : List (String × Nat × Nat)) : Prop := ∀ e ∈ st, e.2.2 ≤ e.2.1

/-! ## Helper lemmas -/

@[simp] theorem exceptBind_ok {α β : Type} (a : α) (f : α → Except PyErr β) :
    (Except.ok a >>= f) = f a := rfl

@[simp] theorem exceptPure_eq {α : Type} (a : α) :
    (pure a : Except PyErr α) = Except.ok a := rfl

@[simp] theorem exceptBind_error {α β : Type} (e : PyErr) (f : α → Except PyErr β) :
    ((Except.error e : Except PyErr α) >>= f) = Except.error e := rfl

theorem pyGet_obj (fields : List (String × Json)) (key : String) (dflt : Json) :
    pyGet (Json.obj fields) key dflt = .ok ((fields.lookup key).getD dflt) := rfl

/-! ## C6: empty outcomes list -/

/-- **C6.** For the input document whose `outcomes` collection is empty, the
overall statistics are score 0, detected count 0, total count 0 (no error),
the per-module map is empty, the surviving list is empty, and the run exits
with status 1 because 0 is below the default threshold 85. -/
theorem C6_empty_outcomes :
    calculate_mutation_score (Json.obj [("outcomes", Json.arr [])]) = .ok (0, 0, 0) ∧
    calculate_per_crate_scores (Json.obj [("outcomes", Json.arr [])]) = .ok [] ∧
    analyze_surviving_mutants (Json.obj [("outcomes", Json.arr [])]) = .ok [] ∧
    mainExitCode (Json.obj [("outcomes", Json.arr [])]) = .ok 1 := by
  refine ⟨rfl, rfl, rfl, ?_⟩
  have h : ((0 : Rat) < OVERALL_THRESHOLD ∨ ([] : List String) ≠ []) := by
    left; norm_num [OVERALL_THRESHOLD]
  simp [mainExitCode, calculate_mutation_score, calculate_per_crate_scores,
    analyze_surviving_mutants, pyGet, pyIterList, msFold, pcFold, svFold,
    main_failed_crates, h, OVERALL_THRESHOLD]

/-! ## C10: missing `outcomes` key -/

/-- **C10.** For every top-level input object that lacks the `outcomes` key
entirely, the program behaves exactly as for an empty outcomes collection:
overall statistics `(0, 0, 0)`, empty per-module map, empty surviving list,
and exit status 1 — the absent collection is silently defaulted. -/
theorem C10_missing_outcomes_key (fields : List (String × Json))
    (h : fields.lookup "outcomes" = none) :
    calculate_mutation_score (Json.obj fields) = .ok (0, 0, 0) ∧
    calculate_per_crate_scores (Json.obj fields) = .ok [] ∧
    analyze_surviving_mutants (Json.obj fields) = .ok [] ∧
    mainExitCode (Json.obj fields) = .ok 1 := by
  have hg : pyGet (Json.obj fields) "outcomes" (Json.arr []) = .ok (Json.arr []) := by
    rw [pyGet_obj, h]; rfl
  have h1 : calculate_mutation_score (Json.obj fields) = .ok (0, 0, 0) := by
    simp [calculate_mutation_score, hg, pyIterList, msFold]
  have h2 : calculate_per_crate_scores (Json.obj fields) = .ok [] := by
    simp [calculate_per_crate_scores, hg, pyIterList, pcFold]
  have h3 : analyze_surviving_mutants (Json.obj fields) = .ok [] := by
    simp [analyze_surviving_mutants, hg, pyIterList, svFold]
  refine ⟨h1, h2, h3, ?_⟩
  have hlt : ((0 : Rat) < OVERALL_THRESHOLD ∨ ([] : List String) ≠ []) := by
    left; norm_num [OVERALL_THRESHOLD]
  simp [mainExitCode, h1, h2, h3, main_failed_crates, hlt, OVERALL_THRESHOLD]

/-- Witness for C10 at a concrete input: an object with an unrelated key. -/
theorem C10_missing_outcomes_key_witness :
    calculate_mutation_score (Json.obj [("something", Json.num 7)]) = .ok (0, 0, 0) ∧
    calculate_per_crate_scores (Json.obj [("something", Json.num 7)]) = .ok [] ∧
    analyze_surviving_mutants (Json.obj [("something", Json.num 7)]) = .ok [] ∧
    mainExitCode (Json.obj [("something", Json.num 7)]) = .ok 1 :=
  C10_missing_outcomes_key [("something", Json.num 7)] rfl

/-! ## Association-list and sorting lemmas -/

theorem mem_insertStr (a x : String) (l : List String) :
    a ∈ insertStr x l ↔ a = x ∨ a ∈ l := by
  induction l with
  | nil => simp [insertStr]
  | cons y ys ih =>
    by_cases h : x ≤ y
    · simp [insertStr, h]
    · simp only [insertStr, if_neg h, List.mem_cons, ih]
      tauto

theorem mem_sortStrs (a : String) (l : List String) : a ∈ sortStrs l ↔ a ∈ l := by
  induction l with
  | nil => simp [sortStrs]
  | cons y ys ih => simp [sortStrs, mem_insertStr, ih]

theorem keys_nodup_inj {α : Type} (l : List (String × α))
    (hnd : (l.map Prod.fst).Nodup) {a b : String × α}
    (ha : a ∈ l) (hb : b ∈ l) (hk : a.1 = b.1) : a = b := by
  induction l with
  | nil => cases ha
  | cons x xs ih =>
    rw [List.map_cons, List.nodup_cons] at hnd
    rcases List.mem_cons.mp ha with ha1 | ha1 <;> rcases List.mem_cons.mp hb with hb1 | hb1
    · rw [ha1, hb1]
    · exfalso
      apply hnd.1
      rw [ha1] at hk
      rw [hk]
      exact List.mem_map.mpr ⟨b, hb1, rfl⟩
    · exfalso
      apply hnd.1
      rw [hb1] at hk
      rw [← hk]
      exact List.mem_map.mpr ⟨a, ha1, rfl⟩
    · exact ih hnd.2 ha1 hb1

theorem lookup_eq_some_of_mem {α : Type} (l : List (String × α))
    (hnd : (l.map Prod.fst).Nodup) {c : String} {v : α} (hm : (c, v) ∈ l) :
    l.lookup c = some v := by
  induction l with
  | nil => cases hm
  | cons x xs ih =>
    rw [List.map_cons, List.nodup_cons] at hnd
    rcases List.mem_cons.mp hm with h | h
    · rw [← h]
      simp [List.lookup]
    · obtain ⟨k, b⟩ := x
      have hne : c ≠ k := by
        intro he
        apply hnd.1
        rw [← he]
        exact List.mem_map.mpr ⟨(c, v), h, rfl⟩
      rw [List.lookup_cons]
      have hb : (c == k) = false := beq_eq_false_iff_ne.mpr hne
      rw [hb]
      exact ih hnd.2 h

/-- Membership in `main`'s failed-crates list (lines 198-201). -/
theorem mem_main_failed_iff (scores : List (String × Rat × Nat × Nat))
    (hnd : (scores.map (fun e => e.1)).Nodup)
    {c : String} {s : Rat} {g t : Nat} (hm : (c, s, g, t) ∈ scores) :
    c ∈ main_failed_crates scores ↔ s < thresholdsGet c := by
  unfold main_failed_crates
  rw [List.mem_map]
  constructor
  · rintro ⟨e, he, hfe⟩
    rw [List.mem_filter] at he
    have he1 : e = (c, s, g, t) := keys_nodup_inj scores hnd he.1 hm hfe
    have := he.2
    rw [he1] at this
    simpa using this
  · intro hlt
    exact ⟨(c, s, g, t), List.mem_filter.mpr ⟨hm, by simpa using hlt⟩, rfl⟩

/-- Membership in `print_report`'s failed-crates list (lines 136-148). -/
theorem mem_report_failed_iff (scores : List (String × Rat × Nat × Nat))
    (hnd : (scores.map (fun e => e.1)).Nodup)
    {c : String} {s : Rat} {g t : Nat} (hm : (c, s, g, t) ∈ scores) :
    c ∈ report_failed_crates scores ↔ s < thresholdsGet c := by
  unfold report_failed_crates
  rw [List.mem_filter]
  have hkey : c ∈ sortStrs (scores.map (fun e => e.1)) := by
    rw [mem_sortStrs]
    exact List.mem_map.mpr ⟨(c, s, g, t), hm, rfl⟩
  have hlk : scores.lookup c = some (s, g, t) := lookup_eq_some_of_mem scores hnd hm
  rw [hlk]
  simp [hkey, not_le]

theorem main_failed_nil_iff (scores : List (String × Rat × Nat × Nat)) :
    main_failed_crates scores = [] ↔ ∀ e ∈ scores, ¬(e.2.1 < thresholdsGet e.1) := by
  simp [main_failed_crates, List.map_eq_nil_iff, List.filter_eq_nil_iff]

/-! ## C1: exit status -/

/-- **C1.** For every successfully loaded input document (on which the
pipeline completes), the process exit status is 0 iff the overall score is
at least the global default threshold 85 and the set of failing modules is
empty (a module failing iff its score is below its effective threshold
`thresholdsGet`); otherwise the exit status is 1. -/
theorem C1_exit_status (data : Json) (code : Nat) (score : Rat) (caught total : Nat)
    (scores : List (String × Rat × Nat × Nat))
    (hm : mainExitCode data = .ok code)
    (hs : calculate_mutation_score data = .ok (score, caught, total))
    (hc : calculate_per_crate_scores data = .ok scores) :
    (code = 0 ↔ ((85 : Rat) ≤ score ∧ ∀ e ∈ scores, ¬(e.2.1 < thresholdsGet e.1))) ∧
    (code = 0 ∨ code = 1) := by
  have h85 : OVERALL_THRESHOLD = (85 : Rat) := rfl
  unfold mainExitCode at hm
  rw [hs] at hm
  rw [exceptBind_ok] at hm
  rw [hc] at hm
  rw [exceptBind_ok] at hm
  cases hsv : analyze_surviving_mutants data with
  | error e => rw [hsv] at hm; simp at hm
  | ok l =>
    rw [hsv] at hm
    rw [exceptBind_ok] at hm
    by_cases hcond : score < OVERALL_THRESHOLD ∨ main_failed_crates scores ≠ []
    · rw [if_pos hcond] at hm
      simp only [exceptPure_eq, Except.ok.injEq] at hm
      subst hm
      refine ⟨?_, Or.inr rfl⟩
      constructor
      · intro h
        exact absurd h one_ne_zero
      · rintro ⟨hge, hall⟩
        rcases hcond with h | h
        · rw [h85] at h
          exact absurd hge (not_le.mpr h)
        · exact absurd ((main_failed_nil_iff scores).mpr hall) h
    · rw [if_neg hcond] at hm
      simp only [exceptPure_eq, Except.ok.injEq] at hm
      subst hm
      push_neg at hcond
      refine ⟨?_, Or.inl rfl⟩
      constructor
      · intro _
        rw [h85] at hcond
        exact ⟨hcond.1, (main_failed_nil_iff scores).mp hcond.2⟩
      · intro _
        rfl

/-- Witness for C1: a single caught mutant gives score 100, no failing
modules, exit status 0. -/
theorem C1_exit_status_witness :
    ((0 : Nat) = 0 ↔ ((85 : Rat) ≤ 100 ∧
      ∀ e ∈ [("unknown", (100 : Rat), 1, 1)], ¬(e.2.1 < thresholdsGet e.1))) ∧
    ((0 : Nat) = 0 ∨ (0 : Nat) = 1) :=
  C1_exit_status
    (Json.obj [("outcomes", Json.arr [Json.obj [("summary", Json.str "caught")]])])
    0 100 1 1 [("unknown", 100, 1, 1)]
    (by simp [mainExitCode, calculate_mutation_score, calculate_per_crate_scores,
          analyze_surviving_mutants, pyGet, pyIterList, msFold, pcFold, svFold,
          detectedJ, summaryDetected, crateNameOf, pyInStr, strContains, cratesSep,
          pcInit, pcBumpTotal, pcBumpCaught, main_failed_crates, List.filter,
          thresholdsGet, THRESHOLDS, List.lookup, OVERALL_THRESHOLD]
        norm_num)
    (by simp [calculate_mutation_score, pyGet, pyIterList, msFold,
          detectedJ, summaryDetected])
    (by simp [calculate_per_crate_scores, pyGet, pyIterList, pcFold, detectedJ,
          summaryDetected, crateNameOf, pyInStr, strContains, cratesSep,
          pcInit, pcBumpTotal, pcBumpCaught, List.lookup])

/-! ## C2: detection predicate -/

/-- **C2.** For every outcome record, the record counts as detected — in the
overall count and in its module's count — iff its `summary` field equals
`"caught"` or `"timeout"`; every other summary value, including a missing
field and unrecognized strings, counts as not detected.  On a
single-record document the overall counts are `(1, 1)` exactly when the
record is detected, `(0, 1)` otherwise, and likewise for the record's
module `c`. -/
theorem C2_detected_iff_caught_or_timeout (fields : List (String × Json)) (c : String)
    (hc : crateNameOf (Json.obj fields) = .ok c) :
    (summaryDetected ((fields.lookup "summary").getD Json.null) = true ↔
      fields.lookup "summary" = some (Json.str "caught") ∨
      fields.lookup "summary" = some (Json.str "timeout")) ∧
    calculate_mutation_score (Json.obj [("outcomes", Json.arr [Json.obj fields])]) =
      .ok (if summaryDetected ((fields.lookup "summary").getD Json.null) then (100, 1, 1)
           else (0, 0, 1)) ∧
    calculate_per_crate_scores (Json.obj [("outcomes", Json.arr [Json.obj fields])]) =
      .ok [(c, if summaryDetected ((fields.lookup "summary").getD Json.null) then (100, 1, 1)
               else (0, 0, 1))] := by
  have hdet : detectedJ (Json.obj fields) =
      .ok (summaryDetected ((fields.lookup "summary").getD Json.null)) := by
    simp [detectedJ, pyGet]
  refine ⟨?_, ?_, ?_⟩
  · cases h : fields.lookup "summary" with
    | none => simp [h, summaryDetected]
    | some v => cases v <;> simp [h, summaryDetected]
  · cases hd : summaryDetected ((fields.lookup "summary").getD Json.null) <;>
      simp [calculate_mutation_score, pyGet, pyIterList, msFold, hdet, hd]
  · cases hd : summaryDetected ((fields.lookup "summary").getD Json.null) <;>
      simp [calculate_per_crate_scores, pyGet, pyIterList, pcFold, hc, hdet, hd,
        pcInit, pcBumpTotal, pcBumpCaught, List.lookup]

/-- Witness for C2: a record whose summary is `"timeout"` is detected. -/
theorem C2_detected_iff_caught_or_timeout_witness :
    calculate_mutation_score
        (Json.obj [("outcomes", Json.arr [Json.obj [("summary", Json.str "timeout")]])]) =
      .ok (100, 1, 1) ∧
    calculate_per_crate_scores
        (Json.obj [("outcomes", Json.arr [Json.obj [("summary", Json.str "timeout")]])]) =
      .ok [("unknown", 100, 1, 1)] := by
  have h := C2_detected_iff_caught_or_timeout [("summary", Json.str "timeout")] "unknown"
    (by simp [crateNameOf, pyGet, pyInStr, strContains, cratesSep, List.lookup])
  refine ⟨?_, ?_⟩
  · have := h.2.1
    simpa [summaryDetected, List.lookup] using this
  · have := h.2.2
    simpa [summaryDetected, List.lookup] using this

/-! ## C3: per-module threshold comparison -/

/-- **C3.** A module fails iff its score is strictly below its effective
threshold — the per-module entry of `THRESHOLDS` when present, the global
default 85 otherwise — both in `print_report`'s failed list and in `main`'s;
a score exactly equal to the threshold passes. -/
theorem C3_module_fails_iff (scores : List (String × Rat × Nat × Nat))
    (hnd : (scores.map (fun e => e.1)).Nodup)
    (c : String) (s : Rat) (g t : Nat) (hm : (c, s, g, t) ∈ scores) :
    (c ∈ main_failed_crates scores ↔ s < thresholdsGet c) ∧
    (c ∈ report_failed_crates scores ↔ s < thresholdsGet c) ∧
    (∀ v, THRESHOLDS.lookup c = some v → thresholdsGet c = v) ∧
    (THRESHOLDS.lookup c = none → thresholdsGet c = OVERALL_THRESHOLD) := by
  refine ⟨mem_main_failed_iff scores hnd hm, mem_report_failed_iff scores hnd hm, ?_, ?_⟩
  · intro v hv
    simp [thresholdsGet, hv]
  · intro hv
    simp [thresholdsGet, hv]

/-- Witness for C3: with the default threshold 85, a module scoring exactly
85 (85 detected of 100) passes while one scoring 84 fails, in both the
report's and main's failed lists. -/
theorem C3_module_fails_iff_witness :
    ("m0" ∉ main_failed_crates [("m0", 85, 85, 100)]) ∧
    ("m0" ∈ main_failed_crates [("m0", 84, 84, 100)]) ∧
    ("m0" ∈ report_failed_crates [("m0", 84, 84, 100)]) := by
  have ht : thresholdsGet "m0" = 85 := by
    simp [thresholdsGet, THRESHOLDS, List.lookup, OVERALL_THRESHOLD]
  have h1 := C3_module_fails_iff [("m0", 85, 85, 100)] (by simp) "m0" 85 85 100 (by simp)
  have h2 := C3_module_fails_iff [("m0", 84, 84, 100)] (by simp) "m0" 84 84 100 (by simp)
  refine ⟨?_, ?_, ?_⟩
  · rw [h1.1, ht]
    norm_num
  · rw [h2.1, ht]
    norm_num
  · rw [h2.2.1, ht]
    norm_num

/-! ## Accumulator-dict lemmas for `calculate_per_crate_scores` -/

theorem lookup_none_iff_not_mem_keys {α : Type} (l : List (String × α)) (c : String) :
    l.lookup c = none ↔ c ∉ l.map Prod.fst := by
  induction l with
  | nil => simp
  | cons e es ih =>
    obtain ⟨k, v⟩ := e
    by_cases h : c = k
    · subst h
      simp [List.lookup]
    · have hb : (c == k) = false := beq_eq_false_iff_ne.mpr h
      simp [List.lookup, hb, ih, h]

theorem lookup_append_of_none {α : Type} (l1 l2 : List (String × α)) (c : String)
    (h : l1.lookup c = none) : (l1 ++ l2).lookup c = l2.lookup c := by
  induction l1 with
  | nil => rfl
  | cons e es ih =>
    obtain ⟨k, v⟩ := e
    cases hb : (c == k) with
    | true => simp [List.lookup, hb] at h
    | false =>
      simp only [List.lookup, hb] at h
      simpa [List.lookup, hb] using ih h

theorem pcInit_lookup_isSome (st : List (String × Nat × Nat)) (c : String) :
    ((pcInit st c).lookup c).isSome := by
  unfold pcInit
  by_cases h : (st.lookup c).isSome
  · simpa [h] using h
  · rw [if_neg h]
    rw [lookup_append_of_none st _ c (Option.not_isSome_iff_eq_none.mp h)]
    simp [List.lookup]

theorem pcInit_keys_nodup (st : List (String × Nat × Nat)) (c : String)
    (hnd : (pcKeys st).Nodup) : (pcKeys (pcInit st c)).Nodup := by
  unfold pcInit
  by_cases h : (st.lookup c).isSome
  · simpa [h] using hnd
  · rw [if_neg h]
    have hc : c ∉ st.map Prod.fst :=
      (lookup_none_iff_not_mem_keys st c).mp (Option.not_isSome_iff_eq_none.mp h)
    unfold pcKeys at hnd ⊢
    rw [List.map_append, List.nodup_append]
    refine ⟨hnd, by simp, ?_⟩
    intro a ha hb
    simp only [List.map_cons, List.map_nil, List.mem_singleton] at hb
    subst hb
    exact hc ha

theorem pcInit_sumTotal (st : List (String × Nat × Nat)) (c : String) :
    pcSumTotal (pcInit st c) = pcSumTotal st := by
  unfold pcInit
  by_cases h : (st.lookup c).isSome <;> simp [h, pcSumTotal]

theorem pcInit_sumCaught (st : List (String × Nat × Nat)) (c : String) :
    pcSumCaught (pcInit st c) = pcSumCaught st := by
  unfold pcInit
  by_cases h : (st.lookup c).isSome <;> simp [h, pcSumCaught]

theorem pcInit_CT (st : List (String × Nat × Nat)) (c : String) (h : pcCT st) :
    pcCT (pcInit st c) := by
  unfold pcInit
  by_cases hs : (st.lookup c).isSome
  · simpa [hs] using h
  · rw [if_neg hs]
    intro e he
    rcases List.mem_append.mp he with h1 | h1
    · exact h e h1
    · simp at h1
      simp [h1]

theorem pcBumpTotal_keys (st : List (String × Nat × Nat)) (c : String) :
    pcKeys (pcBumpTotal st c) = pcKeys st := by
  unfold pcKeys pcBumpTotal
  rw [List.map_map]
  refine List.map_congr_left ?_
  intro e _
  by_cases h : e.1 = c <;> simp [h]

theorem pcBumpCaught_keys (st : List (String × Nat × Nat)) (c : String) :
    pcKeys (pcBumpCaught st c) = pcKeys st := by
  unfold pcKeys pcBumpCaught
  rw [List.map_map]
  refine List.map_congr_left ?_
  intro e _
  by_cases h : e.1 = c <;> simp [h]

theorem lookup_isSome_iff_mem_keys {α : Type} (l : List (String × α)) (c : String) :
    (l.lookup c).isSome ↔ c ∈ l.map Prod.fst := by
  rcases h : l.lookup c with _ | v
  · simpa using (lookup_none_iff_not_mem_keys l c).mp h
  · simp only [Option.isSome_some, true_iff]
    by_contra hc
    rw [(lookup_none_iff_not_mem_keys l c).mpr hc] at h
    cases h

theorem pcBumpTotal_eq_of_lookup_none (st : List (String × Nat × Nat)) (c : String)
    (h : st.lookup c = none) : pcBumpTotal st c = st := by
  induction st with
  | nil => rfl
  | cons e es ih =>
    obtain ⟨k, v⟩ := e
    cases hb : (c == k) with
    | true => simp [List.lookup, hb] at h
    | false =>
      simp only [List.lookup, hb] at h
      have hk : ¬(k = c) := fun he => by simp [he] at hb
      simp only [pcBumpTotal, List.map_cons, if_neg hk]
      have := ih h
      simp only [pcBumpTotal] at this
      rw [this]

theorem pcBumpCaught_eq_of_lookup_none (st : List (String × Nat × Nat)) (c : String)
    (h : st.lookup c = none) : pcBumpCaught st c = st := by
  induction st with
  | nil => rfl
  | cons e es ih =>
    obtain ⟨k, v⟩ := e
    cases hb : (c == k) with
    | true => simp [List.lookup, hb] at h
    | false =>
      simp only [List.lookup, hb] at h
      have hk : ¬(k = c) := fun he => by simp [he] at hb
      simp only [pcBumpCaught, List.map_cons, if_neg hk]
      have := ih h
      simp only [pcBumpCaught] at this
      rw [this]

theorem pcSumTotal_bumpTotal (st : List (String × Nat × Nat)) (c : String)
    (hnd : (pcKeys st).Nodup) (h : (st.lookup c).isSome) :
    pcSumTotal (pcBumpTotal st c) = pcSumTotal st + 1 := by
  induction st with
  | nil => simp [List.lookup] at h
  | cons e es ih =>
    obtain ⟨k, v⟩ := e
    rw [pcKeys, List.map_cons, List.nodup_cons] at hnd
    by_cases hk : k = c
    · subst hk
      have hes : es.lookup k = none :=
        (lookup_none_iff_not_mem_keys es k).mpr hnd.1
      simp only [pcBumpTotal, List.map_cons, if_pos rfl]
      have hid := pcBumpTotal_eq_of_lookup_none es k hes
      simp only [pcBumpTotal] at hid
      rw [hid]
      simp [pcSumTotal]
      omega
    · have hb : (c == k) = false := beq_eq_false_iff_ne.mpr (fun he => hk he.symm)
      simp only [List.lookup, hb] at h
      simp only [pcBumpTotal, List.map_cons, if_neg hk]
      have := ih hnd.2 h
      simp only [pcBumpTotal] at this
      simp only [pcSumTotal, List.map_cons, List.sum_cons] at this ⊢
      omega

theorem pcSumCaught_bumpTotal (st : List (String × Nat × Nat)) (c : String) :
    pcSumCaught (pcBumpTotal st c) = pcSumCaught st := by
  unfold pcSumCaught pcBumpTotal
  rw [List.map_map]
  congr 1
  refine List.map_congr_left ?_
  intro e _
  by_cases h : e.1 = c <;> simp [h]

theorem pcSumTotal_bumpCaught (st : List (String × Nat × Nat)) (c : String) :
    pcSumTotal (pcBumpCaught st c) = pcSumTotal st := by
  unfold pcSumTotal pcBumpCaught
  rw [List.map_map]
  congr 1
  refine List.map_congr_left ?_
  intro e _
  by_cases h : e.1 = c <;> simp [h]

theorem pcSumCaught_bumpCaught (st : List (String × Nat × Nat)) (c : String)
    (hnd : (pcKeys st).Nodup) (h : (st.lookup c).isSome) :
    pcSumCaught (pcBumpCaught st c) = pcSumCaught st + 1 := by
  induction st with
  | nil => simp [List.lookup] at h
  | cons e es ih =>
    obtain ⟨k, v⟩ := e
    rw [pcKeys, List.map_cons, List.nodup_cons] at hnd
    by_cases hk : k = c
    · subst hk
      have hes : es.lookup k = none :=
        (lookup_none_iff_not_mem_keys es k).mpr hnd.1
      simp only [pcBumpCaught, List.map_cons, if_pos rfl]
      have hid := pcBumpCaught_eq_of_lookup_none es k hes
      simp only [pcBumpCaught] at hid
      rw [hid]
      simp [pcSumCaught]
      omega
    · have hb : (c == k) = false := beq_eq_false_iff_ne.mpr (fun he => hk he.symm)
      simp only [List.lookup, hb] at h
      simp only [pcBumpCaught, List.map_cons, if_neg hk]
      have := ih hnd.2 h
      simp only [pcBumpCaught] at this
      simp only [pcSumCaught, List.map_cons, List.sum_cons] at this ⊢
      omega

theorem pcCT_bump_both (st : List (String × Nat × Nat)) (c : String) (h : pcCT st) :
    pcCT (pcBumpCaught (pcBumpTotal st c) c) := by
  intro e he
  simp only [pcBumpCaught, pcBumpTotal, List.map_map, List.mem_map] at he
  obtain ⟨x, hx, hfx⟩ := he
  by_cases h1 : x.1 = c <;> simp only [Function.comp, h1, if_pos, if_neg, ite_true,
    ite_false] at hfx <;> rw [← hfx]
  · simpa using Nat.succ_le_succ (h x hx)
  · exact h x hx

theorem pcCT_bumpTotal (st : List (String × Nat × Nat)) (c : String) (h : pcCT st) :
    pcCT (pcBumpTotal st c) := by
  intro e he
  simp only [pcBumpTotal, List.mem_map] at he
  obtain ⟨x, hx, hfx⟩ := he
  by_cases h1 : x.1 = c <;> simp only [h1, ite_true, ite_false, if_pos, if_neg] at hfx <;>
    rw [← hfx]
  · exact Nat.le_succ_of_le (h x hx)
  · exact h x hx

/-- Joint invariant of the two per-record loops: if the per-crate loop
completes from state `st0`, then the overall loop also completes, its total
grows by the number of records, its caught count by some `k ≤ n`, and the
dict's counter sums grow by exactly the same amounts while keys stay
distinct and `caught ≤ total` holds entrywise. -/
theorem pcFold_spec (outcomes : List Json) :
    ∀ st0 st1, pcFold st0 outcomes = .ok st1 → (pcKeys st0).Nodup → pcCT st0 →
    ∃ k, k ≤ outcomes.length ∧
      (∀ t0 c0 : Nat, msFold (t0, c0) outcomes = .ok (t0 + outcomes.length, c0 + k)) ∧
      pcSumTotal st1 = pcSumTotal st0 + outcomes.length ∧
      pcSumCaught st1 = pcSumCaught st0 + k ∧
      (pcKeys st1).Nodup ∧ pcCT st1 := by
  induction outcomes with
  | nil =>
    intro st0 st1 h hnd hct
    simp only [pcFold, Except.ok.injEq] at h
    subst h
    exact ⟨0, by simp, by intro t0 c0; simp [msFold], by simp, by simp, hnd, hct⟩
  | cons o os ih =>
    intro st0 st1 h hnd hct
    rw [pcFold] at h
    cases hcr : crateNameOf o with
    | error e => rw [hcr] at h; simp at h
    | ok c =>
    rw [hcr, exceptBind_ok] at h
    cases hd : detectedJ o with
    | error e => rw [hd] at h; simp at h
    | ok d =>
    rw [hd, exceptBind_ok] at h
    -- the state after this record
    have hndi := pcInit_keys_nodup st0 c hnd
    have hcti := pcInit_CT st0 c hct
    have hsomei := pcInit_lookup_isSome st0 c
    have hnd2 : (pcKeys (pcBumpTotal (pcInit st0 c) c)).Nodup := by
      rw [pcBumpTotal_keys]; exact hndi
    have hct2 : pcCT (pcBumpTotal (pcInit st0 c) c) := pcCT_bumpTotal _ c hcti
    have hsome2 : (((pcBumpTotal (pcInit st0 c) c).lookup c)).isSome := by
      rw [lookup_isSome_iff_mem_keys]
      have := pcBumpTotal_keys (pcInit st0 c) c
      unfold pcKeys at this
      rw [this]
      rw [← lookup_isSome_iff_mem_keys]
      exact hsomei
    have hnd3 : (pcKeys (if d then pcBumpCaught (pcBumpTotal (pcInit st0 c) c) c
        else pcBumpTotal (pcInit st0 c) c)).Nodup := by
      cases d
      · simpa using hnd2
      · simpa [pcBumpCaught_keys] using hnd2
    have hct3 : pcCT (if d then pcBumpCaught (pcBumpTotal (pcInit st0 c) c) c
        else pcBumpTotal (pcInit st0 c) c) := by
      cases d
      · simpa using hct2
      · simpa using pcCT_bump_both (pcInit st0 c) c hcti
    obtain ⟨k, hk, hms, hT, hC, hnd1, hct1⟩ := ih _ st1 h hnd3 hct3
    refine ⟨(if d then 1 else 0) + k, ?_, ?_, ?_, ?_, hnd1, hct1⟩
    · cases d <;> (try simp) <;> omega
    · intro t0 c0
      rw [msFold, hd, exceptBind_ok]
      have hms2 := hms (t0 + 1) (if d then c0 + 1 else c0)
      rw [hms2]
      cases d <;> (try simp) <;> omega
    · rw [hT]
      have h1 : pcSumTotal (if d then pcBumpCaught (pcBumpTotal (pcInit st0 c) c) c
          else pcBumpTotal (pcInit st0 c) c) = pcSumTotal st0 + 1 := by
        cases d
        · simpa [pcSumTotal_bumpTotal _ c hndi hsomei] using pcInit_sumTotal st0 c
        · simp only [ite_true]
          rw [pcSumTotal_bumpCaught, pcSumTotal_bumpTotal _ c hndi hsomei,
            pcInit_sumTotal]
      rw [h1]
      simp only [List.length_cons]
      omega
    · rw [hC]
      have h1 : pcSumCaught (if d then pcBumpCaught (pcBumpTotal (pcInit st0 c) c) c
          else pcBumpTotal (pcInit st0 c) c) = pcSumCaught st0 + (if d then 1 else 0) := by
        cases d
        · rw [if_neg (by simp)]
          rw [pcSumCaught_bumpTotal, pcInit_sumCaught]
          simp
        · simp only [ite_true]
          rw [pcSumCaught_bumpCaught _ c hnd2 hsome2, pcSumCaught_bumpTotal,
            pcInit_sumCaught]
      rw [h1]
      cases d <;> (try simp) <;> omega

/-- Rational score bounds: `0 ≤ (g/t)*100 ≤ 100` when `g ≤ t`, `t ≠ 0`. -/
theorem ratio_bounds (g t : Nat) (h : g ≤ t) (ht : t ≠ 0) :
    0 ≤ ((g : Rat) / (t : Rat)) * 100 ∧ ((g : Rat) / (t : Rat)) * 100 ≤ 100 := by
  have h1 : (0 : Rat) < (t : Rat) := by exact_mod_cast Nat.pos_of_ne_zero ht
  constructor
  · positivity
  · have h2 : ((g : Rat) / (t : Rat)) ≤ 1 := by
      rw [div_le_one h1]
      exact_mod_cast h
    nlinarith

theorem conv_sum_caught (st : List (String × Nat × Nat)) (hct : pcCT st) :
    ((st.map (fun e => if e.2.1 > 0
        then (e.1, ((e.2.2 : Rat) / (e.2.1 : Rat)) * 100, e.2.2, e.2.1)
        else (e.1, (0 : Rat), 0, 0))).map (fun e => e.2.2.1)).sum = pcSumCaught st := by
  induction st with
  | nil => rfl
  | cons e es ih =>
    have hct2 : pcCT es := fun x hx => hct x (List.mem_cons_of_mem e hx)
    have he := hct e (List.mem_cons_self e es)
    by_cases h : e.2.1 > 0
    · simp only [List.map_cons, List.sum_cons, if_pos h, ih hct2, pcSumCaught]
    · have h0 : e.2.2 = 0 := by omega
      simp only [List.map_cons, List.sum_cons, if_neg h, ih hct2, pcSumCaught, h0]

theorem conv_sum_total (st : List (String × Nat × Nat)) :
    ((st.map (fun e => if e.2.1 > 0
        then (e.1, ((e.2.2 : Rat) / (e.2.1 : Rat)) * 100, e.2.2, e.2.1)
        else (e.1, (0 : Rat), 0, 0))).map (fun e => e.2.2.2)).sum = pcSumTotal st := by
  induction st with
  | nil => rfl
  | cons e es ih =>
    by_cases h : e.2.1 > 0
    · simp only [List.map_cons, List.sum_cons, if_pos h, ih, pcSumTotal]
    · have h0 : e.2.1 = 0 := by omega
      simp only [List.map_cons, List.sum_cons, if_neg h, ih, pcSumTotal]
      omega

theorem conv_keys (st : List (String × Nat × Nat)) :
    ((st.map (fun e => if e.2.1 > 0
        then (e.1, ((e.2.2 : Rat) / (e.2.1 : Rat)) * 100, e.2.2, e.2.1)
        else (e.1, (0 : Rat), 0, 0))).map (fun e => e.1)) = st.map (fun e => e.1) := by
  rw [List.map_map]
  refine List.map_congr_left ?_
  intro e _
  by_cases h : e.2.1 > 0 <;> simp [h]

theorem conv_entries (st : List (String × Nat × Nat)) (hct : pcCT st) :
    ∀ e ∈ (st.map (fun e => if e.2.1 > 0
        then (e.1, ((e.2.2 : Rat) / (e.2.1 : Rat)) * 100, e.2.2, e.2.1)
        else (e.1, (0 : Rat), 0, 0))),
      e.2.2.1 ≤ e.2.2.2 ∧ 0 ≤ e.2.1 ∧ e.2.1 ≤ 100 := by
  intro e he
  rw [List.mem_map] at he
  obtain ⟨x, hx, hfx⟩ := he
  have hc := hct x hx
  by_cases h : x.2.1 > 0
  · rw [if_pos h] at hfx
    obtain ⟨hb1, hb2⟩ := ratio_bounds x.2.2 x.2.1 hc (by omega)
    rw [← hfx]
    exact ⟨hc, hb1, hb2⟩
  · rw [if_neg h] at hfx
    rw [← hfx]
    norm_num

/-- Master analysis of the two scoring functions: keys are distinct, every
per-crate entry satisfies the count and score bounds, and the per-crate
sums agree with the overall counts. -/
theorem per_crate_analysis (data : Json) (scores : List (String × Rat × Nat × Nat))
    (hc : calculate_per_crate_scores data = .ok scores) :
    (scores.map (fun e => e.1)).Nodup ∧
    (∀ e ∈ scores, e.2.2.1 ≤ e.2.2.2 ∧ 0 ≤ e.2.1 ∧ e.2.1 ≤ 100) ∧
    (∀ score caught total, calculate_mutation_score data = .ok (score, caught, total) →
      (scores.map (fun e => e.2.2.1)).sum = caught ∧
      (scores.map (fun e => e.2.2.2)).sum = total ∧
      caught ≤ total ∧ 0 ≤ score ∧ score ≤ 100) := by
  cases hog : pyGet data "outcomes" (Json.arr []) with
  | error e => simp [calculate_per_crate_scores, hog] at hc
  | ok oJ =>
  cases hit : pyIterList oJ with
  | error e => simp [calculate_per_crate_scores, hog, hit] at hc
  | ok outcomes =>
  simp only [calculate_per_crate_scores, hog, hit, exceptBind_ok] at hc
  cases hfold : pcFold [] outcomes with
  | error e => rw [hfold] at hc; simp at hc
  | ok st =>
  rw [hfold, exceptBind_ok] at hc
  simp only [exceptPure_eq, Except.ok.injEq] at hc
  subst hc
  obtain ⟨k, hk, hms, hT, hC, hNK, hCT⟩ := pcFold_spec outcomes [] st hfold
    (by simp [pcKeys]) (by intro e he; cases he)
  have hT0 : pcSumTotal st = outcomes.length := by
    simpa [pcSumTotal] using hT
  have hC0 : pcSumCaught st = k := by
    simpa [pcSumCaught] using hC
  refine ⟨?_, conv_entries st hCT, ?_⟩
  · rw [conv_keys]
    exact hNK
  · intro score caught total hs
    simp only [calculate_mutation_score, hog, hit, exceptBind_ok] at hs
    rw [hms 0 0] at hs
    simp only [exceptBind_ok, Nat.zero_add] at hs
    by_cases hlen : outcomes.length = 0
    · rw [hlen] at hs
      simp only [exceptPure_eq, Except.ok.injEq, if_pos] at hs
      have h3 : score = 0 ∧ caught = 0 ∧ total = 0 := by
        have := hs.symm
        simpa [Prod.ext_iff] using this
      obtain ⟨hsc, hca, hto⟩ := h3
      have hk0 : k = 0 := by omega
      subst hsc
      subst hca
      subst hto
      refine ⟨?_, ?_, le_refl 0, le_refl 0, by norm_num⟩
      · rw [conv_sum_caught st hCT, hC0, hk0]
      · rw [conv_sum_total st, hT0, hlen]
    · rw [if_neg hlen] at hs
      simp only [exceptPure_eq, Except.ok.injEq] at hs
      have h3 : score = ((k : Rat) / (outcomes.length : Rat)) * 100 ∧
          caught = k ∧ total = outcomes.length := by
        have := hs.symm
        simpa [Prod.ext_iff] using this
      obtain ⟨hsc, hca, hto⟩ := h3
      obtain ⟨hb1, hb2⟩ := ratio_bounds k outcomes.length hk hlen
      refine ⟨?_, ?_, ?_, ?_, ?_⟩
      · rw [conv_sum_caught st hCT, hC0, hca]
      · rw [conv_sum_total st, hT0, hto]
      · omega
      · rw [hsc]
        exact hb1
      · rw [hsc]
        exact hb2

/-! ## C4: aggregation is a partition -/

/-- **C4.** For every list of outcome records, the per-module detected
counts sum to the overall detected count and the per-module totals sum to
the overall total: every record is assigned to exactly one module, none
double-counted, none dropped. -/
theorem C4_aggregation_partition (data : Json) (score : Rat) (caught total : Nat)
    (scores : List (String × Rat × Nat × Nat))
    (hs : calculate_mutation_score data = .ok (score, caught, total))
    (hc : calculate_per_crate_scores data = .ok scores) :
    (scores.map (fun e => e.2.2.1)).sum = caught ∧
    (scores.map (fun e => e.2.2.2)).sum = total := by
  obtain ⟨-, -, h⟩ := per_crate_analysis data scores hc
  obtain ⟨h1, h2, -⟩ := h score caught total hs
  exact ⟨h1, h2⟩

/-- Witness for C4: two records in the fallback module, one caught. -/
theorem C4_aggregation_partition_witness :
    (([("unknown", (50 : Rat), 1, 2)].map (fun e => e.2.2.1)).sum = 1) ∧
    (([("unknown", (50 : Rat), 1, 2)].map (fun e => e.2.2.2)).sum = 2) :=
  C4_aggregation_partition
    (Json.obj [("outcomes", Json.arr [Json.obj [("summary", Json.str "caught")],
                                      Json.obj [("summary", Json.str "missed")]])])
    50 1 2 [("unknown", 50, 1, 2)]
    (by simp [calculate_mutation_score, pyGet, pyIterList, msFold, detectedJ,
          summaryDetected, List.lookup]
        norm_num)
    (by simp +decide [calculate_per_crate_scores, pyGet, pyIterList, pcFold, detectedJ,
          summaryDetected, crateNameOf, pyInStr, strContains, cratesSep,
          pcInit, pcBumpTotal, pcBumpCaught, List.lookup]
        norm_num)

/-! ## C9: score bounds and count invariant -/

/-- **C9.** For every list of outcome records, the overall score and every
per-module score lie in `[0, 100]`, and the detected count is at most the
total count both overall and in every module entry. -/
theorem C9_score_bounds (data : Json) (score : Rat) (caught total : Nat)
    (scores : List (String × Rat × Nat × Nat))
    (hs : calculate_mutation_score data = .ok (score, caught, total))
    (hc : calculate_per_crate_scores data = .ok scores) :
    (0 ≤ score ∧ score ≤ 100 ∧ caught ≤ total) ∧
    (∀ e ∈ scores, 0 ≤ e.2.1 ∧ e.2.1 ≤ 100 ∧ e.2.2.1 ≤ e.2.2.2) := by
  obtain ⟨-, hent, h⟩ := per_crate_analysis data scores hc
  obtain ⟨-, -, hct, hb1, hb2⟩ := h score caught total hs
  exact ⟨⟨hb1, hb2, hct⟩, fun e he => ⟨(hent e he).2.1, (hent e he).2.2, (hent e he).1⟩⟩

/-- Witness for C9: a single undetected record. -/
theorem C9_score_bounds_witness :
    ((0 : Rat) ≤ 0 ∧ (0 : Rat) ≤ 100 ∧ 0 ≤ 1) ∧
    (∀ e ∈ [("unknown", (0 : Rat), 0, 1)], 0 ≤ e.2.1 ∧ e.2.1 ≤ 100 ∧ e.2.2.1 ≤ e.2.2.2) :=
  C9_score_bounds
    (Json.obj [("outcomes", Json.arr [Json.obj [("summary", Json.str "unviable")]])])
    0 0 1 [("unknown", 0, 0, 1)]
    (by simp [calculate_mutation_score, pyGet, pyIterList, msFold, detectedJ,
          summaryDetected, List.lookup])
    (by simp +decide [calculate_per_crate_scores, pyGet, pyIterList, pcFold, detectedJ,
          summaryDetected, crateNameOf, pyInStr, strContains, cratesSep,
          pcInit, pcBumpTotal, pcBumpCaught, List.lookup])

/-! ## C8: report and exit-code agreement -/

theorem mem_main_failed_iff_exists (scores : List (String × Rat × Nat × Nat)) (c : String) :
    c ∈ main_failed_crates scores ↔
      ∃ v : Rat × Nat × Nat, (c, v) ∈ scores ∧ v.1 < thresholdsGet c := by
  unfold main_failed_crates
  rw [List.mem_map]
  constructor
  · rintro ⟨e, he, hfe⟩
    rw [List.mem_filter] at he
    refine ⟨e.2, ?_, ?_⟩
    · rw [← hfe]
      exact he.1
    · have h2 := he.2
      rw [decide_eq_true_eq] at h2
      rw [← hfe]
      exact h2
  · rintro ⟨v, hv, hlt⟩
    exact ⟨(c, v), List.mem_filter.mpr ⟨hv, by simpa using hlt⟩, rfl⟩

theorem mem_report_failed_iff_exists (scores : List (String × Rat × Nat × Nat))
    (hnd : (scores.map (fun e => e.1)).Nodup) (c : String) :
    c ∈ report_failed_crates scores ↔
      ∃ v : Rat × Nat × Nat, (c, v) ∈ scores ∧ v.1 < thresholdsGet c := by
  unfold report_failed_crates
  rw [List.mem_filter, mem_sortStrs]
  constructor
  · rintro ⟨hkeys, hpred⟩
    rw [List.mem_map] at hkeys
    obtain ⟨e, he, hfe⟩ := hkeys
    have he2 : (c, e.2) ∈ scores := by
      rw [← hfe]
      exact he
    have hlk : scores.lookup c = some e.2 := lookup_eq_some_of_mem scores hnd he2
    rw [hlk] at hpred
    simp only [Bool.not_eq_true', decide_eq_false_iff_not, not_le] at hpred
    exact ⟨e.2, he2, hpred⟩
  · rintro ⟨v, hv, hlt⟩
    have hlk : scores.lookup c = some v := lookup_eq_some_of_mem scores hnd hv
    refine ⟨List.mem_map.mpr ⟨(c, v), hv, rfl⟩, ?_⟩
    rw [hlk]
    simp only [Bool.not_eq_true', decide_eq_false_iff_not, not_le]
    exact hlt

theorem mainExit_eq_zero_iff (data : Json) (code : Nat) (score : Rat) (caught total : Nat)
    (scores : List (String × Rat × Nat × Nat))
    (hm : mainExitCode data = .ok code)
    (hs : calculate_mutation_score data = .ok (score, caught, total))
    (hc : calculate_per_crate_scores data = .ok scores) :
    (code = 0 ↔ (OVERALL_THRESHOLD ≤ score ∧ main_failed_crates scores = [])) ∧
    (code = 0 ∨ code = 1) := by
  unfold mainExitCode at hm
  rw [hs, exceptBind_ok, hc, exceptBind_ok] at hm
  cases hsv : analyze_surviving_mutants data with
  | error e => rw [hsv] at hm; simp at hm
  | ok l =>
    rw [hsv, exceptBind_ok] at hm
    by_cases hcond : score < OVERALL_THRESHOLD ∨ main_failed_crates scores ≠ []
    · rw [if_pos hcond] at hm
      simp only [exceptPure_eq, Except.ok.injEq] at hm
      subst hm
      refine ⟨?_, Or.inr rfl⟩
      constructor
      · intro h
        exact absurd h one_ne_zero
      · rintro ⟨hge, hnil⟩
        rcases hcond with h | h
        · exact absurd hge (not_le.mpr h)
        · exact absurd hnil h
    · rw [if_neg hcond] at hm
      simp only [exceptPure_eq, Except.ok.injEq] at hm
      subst hm
      push_neg at hcond
      exact ⟨⟨fun _ => ⟨hcond.1, hcond.2⟩, fun _ => rfl⟩, Or.inl rfl⟩

/-- **C8.** The set of failing modules is independent of iteration order:
the failed-crates list computed in `print_report` (sorted key order)
contains exactly the same module names as the one computed in `main` (dict
order), and the report's final PASSED banner holds iff the exit status
is 0 — the reporter never alters the verdict. -/
theorem C8_reporter_consistency (data : Json) (code : Nat) (score : Rat)
    (caught total : Nat) (scores : List (String × Rat × Nat × Nat))
    (hm : mainExitCode data = .ok code)
    (hs : calculate_mutation_score data = .ok (score, caught, total))
    (hc : calculate_per_crate_scores data = .ok scores) :
    (∀ c, c ∈ report_failed_crates scores ↔ c ∈ main_failed_crates scores) ∧
    (report_passed_banner score scores = true ↔ code = 0) := by
  obtain ⟨hnd, -, -⟩ := per_crate_analysis data scores hc
  have hmemeq : ∀ c, c ∈ report_failed_crates scores ↔ c ∈ main_failed_crates scores := by
    intro c
    rw [mem_report_failed_iff_exists scores hnd c, mem_main_failed_iff_exists scores c]
  refine ⟨hmemeq, ?_⟩
  have hnil : report_failed_crates scores = [] ↔ main_failed_crates scores = [] := by
    rw [List.eq_nil_iff_forall_not_mem, List.eq_nil_iff_forall_not_mem]
    constructor
    · intro h a ha
      exact h a ((hmemeq a).mpr ha)
    · intro h a ha
      exact h a ((hmemeq a).mp ha)
  obtain ⟨hiff, -⟩ := mainExit_eq_zero_iff data code score caught total scores hm hs hc
  unfold report_passed_banner
  rw [Bool.and_eq_true, decide_eq_true_eq, List.isEmpty_iff, hnil, hiff]

/-- Witness for C8: a single undetected record fails both in the report and
via the exit code. -/
theorem C8_reporter_consistency_witness :
    (∀ c, c ∈ report_failed_crates [("unknown", (0 : Rat), 0, 1)] ↔
          c ∈ main_failed_crates [("unknown", (0 : Rat), 0, 1)]) ∧
    (report_passed_banner 0 [("unknown", (0 : Rat), 0, 1)] = true ↔ 1 = 0) :=
  C8_reporter_consistency
    (Json.obj [("outcomes", Json.arr [Json.obj [("summary", Json.str "missed")]])])
    1 0 0 1 [("unknown", 0, 0, 1)]
    (by simp +decide [mainExitCode, calculate_mutation_score, calculate_per_crate_scores,
          analyze_surviving_mutants, pyGet, pyIterList, msFold, pcFold, svFold,
          detectedJ, summaryDetected, crateNameOf, pyInStr, strContains, cratesSep,
          pcInit, pcBumpTotal, pcBumpCaught, main_failed_crates, List.filter,
          thresholdsGet, THRESHOLDS, List.lookup, OVERALL_THRESHOLD])
    (by simp [calculate_mutation_score, pyGet, pyIterList, msFold, detectedJ,
          summaryDetected, List.lookup])
    (by simp +decide [calculate_per_crate_scores, pyGet, pyIterList, pcFold, detectedJ,
          summaryDetected, crateNameOf, pyInStr, strContains, cratesSep,
          pcInit, pcBumpTotal, pcBumpCaught, List.lookup])

/-! ## `pySplit` lemmas (for C5) -/

theorem pySplitF_congr (sep : List Char) (hsep : sep ≠ []) :
    ∀ f1 f2 s, s.length ≤ f1 → s.length ≤ f2 →
      pySplitF sep f1 s = pySplitF sep f2 s := by
  intro f1
  induction f1 with
  | zero =>
    intro f2 s h1 _
    have : s = [] := List.length_eq_zero.mp (Nat.le_zero.mp h1)
    subst this
    cases f2 <;> rfl
  | succ f ih =>
    intro f2 s h1 h2
    cases s with
    | nil => cases f2 <;> rfl
    | cons c rest =>
    cases f2 with
    | zero => simp at h2
    | succ g =>
    have hs1 : pySplitF sep (f + 1) (c :: rest)
        = if sep.isPrefixOf (c :: rest) then
            [] :: pySplitF sep f ((c :: rest).drop sep.length)
          else match pySplitF sep f rest with
            | [] => [[c]]
            | p :: ps => (c :: p) :: ps := rfl
    have hs2 : pySplitF sep (g + 1) (c :: rest)
        = if sep.isPrefixOf (c :: rest) then
            [] :: pySplitF sep g ((c :: rest).drop sep.length)
          else match pySplitF sep g rest with
            | [] => [[c]]
            | p :: ps => (c :: p) :: ps := rfl
    rw [hs1, hs2]
    have hslen : 1 ≤ sep.length := by
      cases sep
      · exact absurd rfl hsep
      · simp
    have hlc : (c :: rest).length = rest.length + 1 := by simp
    by_cases hp : sep.isPrefixOf (c :: rest)
    · rw [if_pos hp, if_pos hp]
      have hd : ((c :: rest).drop sep.length).length ≤ rest.length := by
        rw [List.length_drop]
        simp only [List.length_cons]
        omega
      rw [ih g _ (by omega) (by omega)]
    · rw [if_neg hp, if_neg hp]
      rw [ih g rest (by simp at h1; omega) (by simp at h2; omega)]

theorem pySplit_cons (sep : List Char) (hsep : sep ≠ []) (c : Char) (rest : List Char) :
    pySplit sep (c :: rest) =
      if sep.isPrefixOf (c :: rest) then
        [] :: pySplit sep ((c :: rest).drop sep.length)
      else
        match pySplit sep rest with
        | [] => [[c]]
        | p :: ps => (c :: p) :: ps := by
  have hslen : 1 ≤ sep.length := by
    cases sep
    · exact absurd rfl hsep
    · simp
  have hstep : pySplit sep (c :: rest)
      = if sep.isPrefixOf (c :: rest) then
          [] :: pySplitF sep rest.length ((c :: rest).drop sep.length)
        else match pySplitF sep rest.length rest with
          | [] => [[c]]
          | p :: ps => (c :: p) :: ps := rfl
  rw [hstep]
  by_cases hp : sep.isPrefixOf (c :: rest)
  · rw [if_pos hp, if_pos hp]
    have hd : ((c :: rest).drop sep.length).length ≤ rest.length := by
      rw [List.length_drop]
      simp only [List.length_cons]
      omega
    rw [pySplitF_congr sep hsep rest.length ((c :: rest).drop sep.length).length _ hd
      (le_refl _)]
    rfl
  · rw [if_neg hp, if_neg hp]
    rfl

theorem strContains_eq_isSome (sep : List Char) :
    ∀ s, strContains sep s = (firstOccur sep s).isSome := by
  intro s
  induction s with
  | nil =>
    by_cases h : sep.isEmpty <;> simp [strContains, firstOccur, h]
  | cons c rest ih =>
    by_cases hp : sep.isPrefixOf (c :: rest) <;>
      simp [strContains, firstOccur, hp, ih]

theorem pySplit_of_firstOccur_none (sep : List Char) (hsep : sep ≠ []) :
    ∀ s, firstOccur sep s = none → pySplit sep s = [s] := by
  intro s
  induction s with
  | nil => intro _; rfl
  | cons c rest ih =>
    intro h
    have hp : ¬sep.isPrefixOf (c :: rest) := by
      intro hp
      simp [firstOccur, hp] at h
    have hr : firstOccur sep rest = none := by
      simp [firstOccur, hp] at h
      exact h
    rw [pySplit_cons sep hsep c rest, if_neg hp, ih hr]

theorem pySplit_of_firstOccur_some (sep : List Char) (hsep : sep ≠ []) :
    ∀ s i, firstOccur sep s = some i →
      pySplit sep s = s.take i :: pySplit sep (s.drop (i + sep.length)) := by
  intro s
  induction s with
  | nil =>
    intro i h
    have : ¬sep.isEmpty := by
      cases sep
      · exact absurd rfl hsep
      · simp
    simp [firstOccur, this] at h
  | cons c rest ih =>
    intro i h
    by_cases hp : sep.isPrefixOf (c :: rest)
    · have hi : i = 0 := by
        simp [firstOccur, hp] at h
        omega
      subst hi
      rw [pySplit_cons sep hsep c rest, if_pos hp]
      simp
    · simp only [firstOccur, if_neg hp, Option.map_eq_some'] at h
      obtain ⟨j, hj, hji⟩ := h
      subst hji
      rw [pySplit_cons sep hsep c rest, if_neg hp, ih j hj]
      have hdrop : (c :: rest).drop (j + 1 + sep.length) = rest.drop (j + sep.length) := by
        have : j + 1 + sep.length = (j + sep.length) + 1 := by omega
        rw [this]
        rfl
      rw [hdrop]
      rfl

theorem pySplit_head (sep : List Char) (hsep : sep ≠ []) (s : List Char) :
    ∃ t, pySplit sep s =
      (match firstOccur sep s with
       | none => s
       | some j => s.take j) :: t := by
  cases hfo : firstOccur sep s with
  | none => exact ⟨[], by rw [pySplit_of_firstOccur_none sep hsep s hfo]⟩
  | some j => exact ⟨_, pySplit_of_firstOccur_some sep hsep s j hfo⟩

theorem singleton_isPrefixOf (ch c : Char) (rest : List Char) :
    ([ch]).isPrefixOf (c :: rest) = (ch == c) := by
  simp [List.isPrefixOf]

theorem takeWhile_of_firstOccur_none (ch : Char) :
    ∀ s : List Char, firstOccur [ch] s = none →
      s.takeWhile (fun c => c ≠ ch) = s := by
  intro s
  induction s with
  | nil => intro _; rfl
  | cons c rest ih =>
    intro h
    simp only [firstOccur, singleton_isPrefixOf] at h
    by_cases hc : ch = c
    · simp [hc] at h
    · have hb : (ch == c) = false := beq_eq_false_iff_ne.mpr hc
      rw [hb] at h
      simp only [Bool.false_eq_true, if_false] at h
      have hr : firstOccur [ch] rest = none := by
        cases hfo : firstOccur [ch] rest
        · rfl
        · rw [hfo] at h
          simp at h
      rw [List.takeWhile_cons, if_pos (by exact decide_eq_true (Ne.symm hc)), ih hr]

theorem takeWhile_of_firstOccur_some (ch : Char) :
    ∀ (s : List Char) (j : Nat), firstOccur [ch] s = some j →
      s.takeWhile (fun c => c ≠ ch) = s.take j := by
  intro s
  induction s with
  | nil =>
    intro j h
    simp [firstOccur] at h
  | cons c rest ih =>
    intro j h
    simp only [firstOccur, singleton_isPrefixOf] at h
    by_cases hc : ch = c
    · rw [if_pos (by simp [hc])] at h
      have hj : j = 0 := by
        simpa using h.symm
      subst hj
      rw [List.takeWhile_cons, if_neg (by simp [hc.symm])]
      rfl
    · have hb : (ch == c) = false := beq_eq_false_iff_ne.mpr hc
      rw [hb] at h
      simp only [Bool.false_eq_true, if_false, Option.map_eq_some'] at h
      obtain ⟨j0, hj0, hj⟩ := h
      subst hj
      rw [List.takeWhile_cons, if_pos (by exact decide_eq_true (Ne.symm hc)), ih j0 hj0,
        List.take_succ_cons]

theorem pySplit_singleton_head (ch : Char) (s : List Char) :
    ∃ t, pySplit [ch] s = (s.takeWhile (fun c => c ≠ ch)) :: t := by
  obtain ⟨t, ht⟩ := pySplit_head [ch] (by simp) s
  cases hfo : firstOccur [ch] s with
  | none =>
    rw [hfo] at ht
    rw [takeWhile_of_firstOccur_none ch s hfo]
    exact ⟨t, ht⟩
  | some j =>
    rw [hfo] at ht
    rw [takeWhile_of_firstOccur_some ch s j hfo]
    exact ⟨t, ht⟩

theorem slashSep_eq : slashSep = [slashChar] := rfl

/-- The code's path-to-module extraction agrees with the amended
(substring-marker) specification on every path, and never raises. -/
theorem crateNameOfPath_eq_amended (p : String) :
    crateNameOfPath p = .ok (crateNameAmendedSpec p) := by
  have hsep : cratesSep ≠ [] := by decide
  unfold crateNameOfPath crateNameAmendedSpec
  cases hfo : firstOccur cratesSep p.data with
  | none =>
    have hc : strContains cratesSep p.data = false := by
      rw [strContains_eq_isSome, hfo]
      rfl
    rw [hc]
    rfl
  | some i =>
    have hc : strContains cratesSep p.data = true := by
      rw [strContains_eq_isSome, hfo]
      rfl
    rw [hc]
    rw [if_pos rfl]
    rw [pySplit_of_firstOccur_some cratesSep hsep p.data i hfo]
    obtain ⟨t, ht⟩ := pySplit_head cratesSep hsep (p.data.drop (i + cratesSep.length))
    rw [ht]
    rw [slashSep_eq]
    obtain ⟨t2, ht2⟩ := pySplit_singleton_head slashChar
      (match firstOccur cratesSep (p.data.drop (i + cratesSep.length)) with
       | none => p.data.drop (i + cratesSep.length)
       | some j => (p.data.drop (i + cratesSep.length)).take j)
    simp only [pyIndex, List.get?, exceptBind_ok]
    rw [ht2]
    rfl

/-! ## C5: module-name extraction -/

/-- **C5 counterexample.** The claim states the module is taken from the
component after a `crates/` *path-segment* marker, with `"unknown"` when
the marker is absent.  The path `"mycrates/foo/bar.rs"` has no `"crates"`
path segment (its segments are `my crates`, `foo`, `bar.rs`), yet the code
assigns module `"foo"`, not `"unknown"`: the marker is matched as a
substring of the path, not as a path segment. -/
theorem C5_counterexample :
    crateNameOf (Json.obj [("scenario",
        Json.obj [("file", Json.str "mycrates/foo/bar.rs")])]) = .ok "foo" ∧
    "crates".data ∉ pySplit slashSep "mycrates/foo/bar.rs".data ∧
    ("foo" : String) ≠ "unknown" := by
  refine ⟨by rfl, by decide, by decide⟩

/-- **C5 (amended).** The grouping key depends only on the record's
file-path string, and the marker `"crates/"` is matched as a substring:
when it occurs, the module is the text after its first occurrence,
truncated at the next `'/'` and at the next occurrence of the marker
(the first `'/'`-component of the second piece of the split); when the
substring is absent, the module is `"unknown"`. -/
theorem C5_module_name_amended (p : String) (fields sfs : List (String × Json))
    (h1 : fields.lookup "scenario" = some (Json.obj sfs))
    (h2 : sfs.lookup "file" = some (Json.str p)) :
    crateNameOf (Json.obj fields) = crateNameOfPath p ∧
    crateNameOfPath p = .ok (crateNameAmendedSpec p) := by
  refine ⟨?_, crateNameOfPath_eq_amended p⟩
  unfold crateNameOf crateNameOfPath
  rw [pyGet_obj, h1]
  simp only [Option.getD_some, exceptBind_ok]
  rw [pyGet_obj, h2]
  simp only [Option.getD_some, exceptBind_ok]
  rfl

/-- Witness for the amended C5 at a concrete path with the marker. -/
theorem C5_module_name_amended_witness :
    crateNameOf (Json.obj [("scenario",
        Json.obj [("file", Json.str "a/crates/m/x.rs")])])
      = crateNameOfPath "a/crates/m/x.rs" ∧
    crateNameOfPath "a/crates/m/x.rs" = .ok (crateNameAmendedSpec "a/crates/m/x.rs") :=
  C5_module_name_amended "a/crates/m/x.rs"
    [("scenario", Json.obj [("file", Json.str "a/crates/m/x.rs")])]
    [("file", Json.str "a/crates/m/x.rs")] rfl rfl

/-! ## C7: totality of the downstream pipeline -/

theorem detectedJ_obj (ofs : List (String × Json)) :
    detectedJ (Json.obj ofs) =
      .ok (summaryDetected ((ofs.lookup "summary").getD Json.null)) := by
  simp [detectedJ, pyGet]

theorem goodRecord_obj (o : Json) (h : goodRecord o = true) :
    ∃ ofs, o = Json.obj ofs := by
  cases o <;> simp [goodRecord] at h <;> exact ⟨_, rfl⟩

theorem good_scen_obj (ofs : List (String × Json))
    (h : goodRecord (Json.obj ofs) = true) :
    ∃ sfs, (ofs.lookup "scenario").getD (Json.obj []) = Json.obj sfs := by
  have h2 : goodScenario (ofs.lookup "scenario") = true := h
  cases hsc : ofs.lookup "scenario" with
  | none => exact ⟨[], rfl⟩
  | some v =>
    rw [hsc] at h2
    cases v with
    | obj sfs => exact ⟨sfs, rfl⟩
    | null => simp [goodScenario] at h2
    | bool b => simp [goodScenario] at h2
    | num n => simp [goodScenario] at h2
    | str s => simp [goodScenario] at h2
    | arr xs => simp [goodScenario] at h2

theorem good_file_str (ofs : List (String × Json))
    (h : goodRecord (Json.obj ofs) = true) :
    ∃ p : String,
      pyGet ((ofs.lookup "scenario").getD (Json.obj [])) "file" (Json.str "")
        = .ok (Json.str p) := by
  have h2 : goodScenario (ofs.lookup "scenario") = true := h
  cases hsc : ofs.lookup "scenario" with
  | none =>
    refine ⟨"", ?_⟩
    rw [Option.getD_none, pyGet_obj]
    rfl
  | some v =>
    rw [hsc] at h2
    cases v with
    | obj sfs =>
      rw [Option.getD_some, pyGet_obj]
      have h3 : goodFile (sfs.lookup "file") = true := h2
      cases hf : sfs.lookup "file" with
      | none => exact ⟨"", rfl⟩
      | some w =>
        rw [hf] at h3
        cases w with
        | str s => exact ⟨s, rfl⟩
        | null => simp [goodFile] at h3
        | bool b => simp [goodFile] at h3
        | num n => simp [goodFile] at h3
        | arr xs => simp [goodFile] at h3
        | obj o2 => simp [goodFile] at h3
    | null => simp [goodScenario] at h2
    | bool b => simp [goodScenario] at h2
    | num n => simp [goodScenario] at h2
    | str s => simp [goodScenario] at h2
    | arr xs => simp [goodScenario] at h2

theorem crateNameOf_eq_path (ofs : List (String × Json)) (p : String)
    (hfile : pyGet ((ofs.lookup "scenario").getD (Json.obj [])) "file" (Json.str "")
      = .ok (Json.str p)) :
    crateNameOf (Json.obj ofs) = crateNameOfPath p := by
  unfold crateNameOf crateNameOfPath
  rw [pyGet_obj, exceptBind_ok, hfile, exceptBind_ok]
  rfl

theorem crateNameOf_ok_of_good (o : Json) (h : goodRecord o = true) :
    ∃ c, crateNameOf o = .ok c := by
  obtain ⟨ofs, rfl⟩ := goodRecord_obj o h
  obtain ⟨p, hp⟩ := good_file_str ofs h
  rw [crateNameOf_eq_path ofs p hp]
  exact ⟨crateNameAmendedSpec p, crateNameOfPath_eq_amended p⟩

theorem msFold_ok (outcomes : List Json) (hall : ∀ o ∈ outcomes, goodRecord o = true) :
    ∀ acc, ∃ r, msFold acc outcomes = .ok r := by
  induction outcomes with
  | nil => intro acc; exact ⟨acc, rfl⟩
  | cons o os ih =>
    intro acc
    obtain ⟨ofs, rfl⟩ := goodRecord_obj o (hall o (List.mem_cons_self o os))
    obtain ⟨r, hr⟩ := ih (fun x hx => hall x (List.mem_cons_of_mem _ hx)) _
    exact ⟨r, by rw [msFold, detectedJ_obj, exceptBind_ok, hr]⟩

theorem pcFold_ok (outcomes : List Json) (hall : ∀ o ∈ outcomes, goodRecord o = true) :
    ∀ st, ∃ st', pcFold st outcomes = .ok st' := by
  induction outcomes with
  | nil => intro st; exact ⟨st, rfl⟩
  | cons o os ih =>
    intro st
    have hgo := hall o (List.mem_cons_self o os)
    obtain ⟨c, hc⟩ := crateNameOf_ok_of_good o hgo
    obtain ⟨ofs, rfl⟩ := goodRecord_obj o hgo
    obtain ⟨st', hst⟩ := ih (fun x hx => hall x (List.mem_cons_of_mem _ hx)) _
    exact ⟨st', by rw [pcFold, hc, exceptBind_ok, detectedJ_obj, exceptBind_ok, hst]⟩

theorem svFold_ok (outcomes : List Json) (hall : ∀ o ∈ outcomes, goodRecord o = true) :
    ∀ acc, ∃ r, svFold acc outcomes = .ok r := by
  induction outcomes with
  | nil => intro acc; exact ⟨acc, rfl⟩
  | cons o os ih =>
    intro acc
    have hgo := hall o (List.mem_cons_self o os)
    obtain ⟨ofs, rfl⟩ := goodRecord_obj o hgo
    obtain ⟨sfs, hsc⟩ := good_scen_obj ofs hgo
    cases hd : summaryDetected ((ofs.lookup "summary").getD Json.null) with
    | true =>
      obtain ⟨r, hr⟩ := ih (fun x hx => hall x (List.mem_cons_of_mem _ hx)) acc
      refine ⟨r, ?_⟩
      rw [svFold, detectedJ_obj, hd, exceptBind_ok, if_pos rfl, hr]
    | false =>
      obtain ⟨r, hr⟩ := ih (fun x hx => hall x (List.mem_cons_of_mem _ hx))
        (acc ++ [⟨(sfs.lookup "file").getD (Json.str "unknown"),
                 (sfs.lookup "function").getD (Json.str "unknown"),
                 (sfs.lookup "line").getD (Json.num 0),
                 (ofs.lookup "summary").getD (Json.str "unknown")⟩])
      refine ⟨r, ?_⟩
      rw [svFold, detectedJ_obj, hd, exceptBind_ok, if_neg (by simp), pyGet_obj,
        exceptBind_ok, hsc, pyGet_obj, exceptBind_ok, pyGet_obj, exceptBind_ok,
        pyGet_obj, exceptBind_ok, pyGet_obj, exceptBind_ok, hr]

/-- **C7 counterexample.** A top-level object that parses fine can still
crash the pipeline: a record whose `scenario` field is the number `5` makes
`calculate_per_crate_scores` call `.get` on a non-dict, raising
`AttributeError`, so the claim that no error can be raised downstream for
every record shape is false. -/
theorem C7_counterexample :
    calculate_per_crate_scores
        (Json.obj [("outcomes", Json.arr [Json.obj [("scenario", Json.num 5)]])])
      = .error .attributeError ∧
    mainExitCode (Json.obj [("outcomes", Json.arr [Json.obj [("scenario", Json.num 5)]])])
      = .error .attributeError := by
  constructor <;> rfl

/-- **C7 (amended).** The pipeline never raises as long as each outcome
record is an object whose `scenario` field, when present, is an object
whose `file` field, when present, is a string (`goodRecord`); any other
per-record fields, missing or unexpected (including `summary`, `function`,
`line`, and extra keys), are absorbed by defaulting, and a missing
`outcomes` key is also absorbed. -/
theorem C7_pipeline_total_amended (fields : List (String × Json)) (outcomes : List Json)
    (hout : fields.lookup "outcomes" = some (Json.arr outcomes) ∨
            fields.lookup "outcomes" = none)
    (hrec : ∀ o ∈ outcomes, goodRecord o = true) :
    (∃ v, calculate_mutation_score (Json.obj fields) = .ok v) ∧
    (∃ v, calculate_per_crate_scores (Json.obj fields) = .ok v) ∧
    (∃ v, analyze_surviving_mutants (Json.obj fields) = .ok v) ∧
    (∃ code, mainExitCode (Json.obj fields) = .ok code) := by
  obtain ⟨outs, houtJ, hgood⟩ :
      ∃ outs, pyGet (Json.obj fields) "outcomes" (Json.arr []) = .ok (Json.arr outs) ∧
        ∀ o ∈ outs, goodRecord o = true := by
    rcases hout with h | h
    · exact ⟨outcomes, by rw [pyGet_obj, h]; rfl, hrec⟩
    · exact ⟨[], by rw [pyGet_obj, h]; rfl, by intro o ho; cases ho⟩
  obtain ⟨tc, htc⟩ := msFold_ok outs hgood (0, 0)
  have hcalc : ∃ v, calculate_mutation_score (Json.obj fields) = .ok v := by
    by_cases h0 : tc.1 = 0
    · exact ⟨(0, 0, 0), by
        unfold calculate_mutation_score
        rw [houtJ, exceptBind_ok]
        show (msFold (0, 0) outs >>= _) = _
        rw [htc, exceptBind_ok, if_pos h0]
        rfl⟩
    · exact ⟨(((tc.2 : Rat) / (tc.1 : Rat)) * 100, tc.2, tc.1), by
        unfold calculate_mutation_score
        rw [houtJ, exceptBind_ok]
        show (msFold (0, 0) outs >>= _) = _
        rw [htc, exceptBind_ok, if_neg h0]
        rfl⟩
  obtain ⟨st, hst⟩ := pcFold_ok outs hgood []
  have hpc : ∃ v, calculate_per_crate_scores (Json.obj fields) = .ok v := by
    refine ⟨st.map (fun e =>
      if e.2.1 > 0 then (e.1, ((e.2.2 : Rat) / (e.2.1 : Rat)) * 100, e.2.2, e.2.1)
      else (e.1, 0, 0, 0)), ?_⟩
    unfold calculate_per_crate_scores
    rw [houtJ, exceptBind_ok]
    show (pcFold [] outs >>= _) = _
    rw [hst, exceptBind_ok]
    rfl
  obtain ⟨sv, hsv0⟩ := svFold_ok outs hgood []
  have hsv : ∃ v, analyze_surviving_mutants (Json.obj fields) = .ok v := by
    refine ⟨sv, ?_⟩
    unfold analyze_surviving_mutants
    rw [houtJ, exceptBind_ok]
    show (svFold [] outs : Except PyErr (List SurvivingMutant)) = _
    exact hsv0
  obtain ⟨v1, h1⟩ := hcalc
  obtain ⟨v2, h2⟩ := hpc
  obtain ⟨v3, h3⟩ := hsv
  refine ⟨⟨v1, h1⟩, ⟨v2, h2⟩, ⟨v3, h3⟩, ?_⟩
  unfold mainExitCode
  rw [h1, exceptBind_ok, h2, exceptBind_ok, h3, exceptBind_ok]
  by_cases hcond : v1.1 < OVERALL_THRESHOLD ∨ main_failed_crates v2 ≠ []
  · exact ⟨1, by rw [if_pos hcond]; rfl⟩
  · exact ⟨0, by rw [if_neg hcond]; rfl⟩

/-- Witness for the amended C7: records with missing, extra and oddly typed
fields (a numeric `summary`, a null `line`) are absorbed without error. -/
theorem C7_pipeline_total_amended_witness :
    (∃ v, calculate_mutation_score (Json.obj [("outcomes", Json.arr
      [Json.obj [("weird", Json.bool true)],
       Json.obj [("scenario", Json.obj [("line", Json.null)]),
                 ("summary", Json.num 7)]])]) = .ok v) ∧
    (∃ v, calculate_per_crate_scores (Json.obj [("outcomes", Json.arr
      [Json.obj [("weird", Json.bool true)],
       Json.obj [("scenario", Json.obj [("line", Json.null)]),
                 ("summary", Json.num 7)]])]) = .ok v) ∧
    (∃ v, analyze_surviving_mutants (Json.obj [("outcomes", Json.arr
      [Json.obj [("weird", Json.bool true)],
       Json.obj [("scenario", Json.obj [("line", Json.null)]),
                 ("summary", Json.num 7)]])]) = .ok v) ∧
    (∃ code, mainExitCode (Json.obj [("outcomes", Json.arr
      [Json.obj [("weird", Json.bool true)],
       Json.obj [("scenario", Json.obj [("line", Json.null)]),
                 ("summary", Json.num 7)]])]) = .ok code) :=
  C7_pipeline_total_amended
    [("outcomes", Json.arr
      [Json.obj [("weird", Json.bool true)],
       Json.obj [("scenario", Json.obj [("line", Json.null)]),
                 ("summary", Json.num 7)]])]
    [Json.obj [("weird", Json.bool true)],
     Json.obj [("scenario", Json.obj [("line", Json.null)]), ("summary", Json.num 7)]]
    (Or.inl rfl)
    (by decide)
